import Mathlib

/-!
Verification of the Chladni plate explorer core pipeline.

Shallow embedding of the computational core of the Chladni plate explorer
(`physics.js`, `render.js`): mode-catalog construction, frequency-to-blend
mapping, displacement-field evaluation, and field sampling with nodal-point
extraction.  JavaScript numbers are modelled as real numbers (`ℝ`), JS
integer indices as `ℤ`/`ℕ`, nullable values as `Option`, and the stable
`Array.prototype.sort` as `List.mergeSort` (stable by construction).
-/

namespace Chladni

/-! ## Constants (`render.js` lines 7–10, constructor defaults) -/

/-- Source: `const F_MIN = 20`. -/
noncomputable def F_MIN : ℝ := 20

/-- Source: `const F_MAX = 20000`. -/
noncomputable def F_MAX : ℝ := 20000

/-- Source: `const LOG_F_MIN = Math.log(F_MIN)`. -/
noncomputable def LOG_F_MIN : ℝ := Real.log F_MIN

/-- Source: `const LOG_F_MAX = Math.log(F_MAX)`. -/
noncomputable def LOG_F_MAX : ℝ := Real.log F_MAX

/-- Source: `this.nodeThreshold = 0.08` (renderer constructor). -/
noncomputable def nodeThreshold : ℝ := 0.08

/-! ## `physics.js`: displacement fields -/

/-- Model of `Math.hypot(x, y)`. -/
noncomputable def hypot (x y : ℝ) : ℝ := Real.sqrt (x * x + y * y)

/-- Model of `Math.atan2(y, x)`: the argument of the complex number `x + i·y`,
in `(-π, π]`. -/
noncomputable def atan2 (y x : ℝ) : ℝ := Complex.arg ⟨x, y⟩

/-- Source function `squareModeDisplacement(xNorm, yNorm, m, n)` from `physics.js`:
maps `[-1,1]` to `[0,1]`, returns `0` for the degenerate diagonal `m = n`,
otherwise `cos(nπX)cos(mπY) − cos(mπX)cos(nπY)`. -/
noncomputable def squareModeDisplacement (xNorm yNorm : ℝ) (m n : ℤ) : ℝ :=
  let X := (xNorm + 1) * 0.5
  let Y := (yNorm + 1) * 0.5
  if m = n then 0
  else
    Real.cos (n * Real.pi * X) * Real.cos (m * Real.pi * Y)
      - Real.cos (m * Real.pi * X) * Real.cos (n * Real.pi * Y)

/-- Source function `radialMode(r, nRadial)` from `physics.js`:
`cos(nRadial·π·r) * exp(-1.2·r·r)`. -/
noncomputable def radialMode (r : ℝ) (nRadial : ℤ) : ℝ :=
  Real.cos (nRadial * Real.pi * r) * Real.exp (-1.2 * r * r)

/-- Source function `circleModeDisplacement(xNorm, yNorm, m, nRadial)` from `physics.js`:
`0` outside the unit disc, otherwise `radialMode(r, nRadial) * cos(m·θ)`. -/
noncomputable def circleModeDisplacement (xNorm yNorm : ℝ) (m nRadial : ℤ) : ℝ :=
  let r := hypot xNorm yNorm
  if r > 1 then 0
  else
    let theta := atan2 yNorm xNorm
    let angular := Real.cos (m * theta)
    radialMode r nRadial * angular

/-- The square-plate displacement formula exactly as the specification words
it: `cos(nπX)cos(mπY) − cos(mπX)cos(nπY)` with `X = (xn+1)/2`, `Y = (yn+1)/2`.
Stated separately so the code definition can be compared against it. -/
noncomputable def squareDisplacementSpec (xn yn : ℝ) (m n : ℤ) : ℝ :=
  let X := (xn + 1) / 2
  let Y := (yn + 1) / 2
  Real.cos (n * Real.pi * X) * Real.cos (m * Real.pi * Y)
    - Real.cos (m * Real.pi * X) * Real.cos (n * Real.pi * Y)

/-- The circular-plate displacement formula exactly as the specification words
it: `cos(m·θ) · cos(nr·π·r) · exp(−1.2·r²)` with `r = hypot(xn, yn)` and
`θ = atan2(yn, xn)`. -/
noncomputable def circleDisplacementSpec (xn yn : ℝ) (m nr : ℤ) : ℝ :=
  let r := hypot xn yn
  let theta := atan2 yn xn
  Real.cos (m * theta) * Real.cos (nr * Real.pi * r) * Real.exp (-1.2 * r ^ 2)

/-! ## `render.js`: mode catalogs -/

/-- A square-plate mode record (`{ m, n, modeIndex, baseFreq, eigenFreq }`).
`baseFreq`/`eigenFreq` are absent in JS until the assignment loop runs;
they are modelled as fields initialised to `0` and overwritten by
`assignSquareFreqs`. -/
structure SquareMode where
  m : ℤ
  n : ℤ
  modeIndex : ℝ
  baseFreq : ℝ := 0
  eigenFreq : ℝ := 0

/-- A circular-plate mode record (`{ m, nRadial, modeIndex, baseFreq,
eigenFreq }`). -/
structure CircleMode where
  m : ℤ
  nRadial : ℤ
  modeIndex : ℝ
  baseFreq : ℝ := 0
  eigenFreq : ℝ := 0

/-- The enumeration loop of `buildSquareModes`: all pairs `(m, n)` with
`1 ≤ m ≤ maxM`, `1 ≤ n ≤ maxN`, skipping the degenerate diagonal `m = n`,
in row-major (`m`-outer) order. -/
def squarePairs (maxM maxN : ℕ) : List (ℤ × ℤ) :=
  (List.range maxM).flatMap fun mi =>
    (List.range maxN).filterMap fun ni =>
      let m : ℤ := mi + 1
      let n : ℤ := ni + 1
      if m = n then none else some (m, n)

/-- The enumeration loop of `buildCircleModes`: all pairs `(m, nRadial)` with
`0 ≤ m ≤ maxM`, `1 ≤ nRadial ≤ maxRadial`, in row-major (`m`-outer) order. -/
def circlePairs (maxM maxRadial : ℕ) : List (ℤ × ℤ) :=
  (List.range (maxM + 1)).flatMap fun mi =>
    (List.range maxRadial).map fun ni =>
      ((mi : ℤ), (ni : ℤ) + 1)

/-- The comparator `(a, b) => a.modeIndex - b.modeIndex` passed to the
(stable) `Array.prototype.sort`, i.e. ascending order of `modeIndex`. -/
noncomputable def squareLE (a b : SquareMode) : Bool := decide (a.modeIndex ≤ b.modeIndex)

/-- Comparator for circle modes, ascending `modeIndex`. -/
noncomputable def circleLE (a b : CircleMode) : Bool := decide (a.modeIndex ≤ b.modeIndex)

/-- The frequency-assignment loop shared by both builders
(`render.js` lines 30–37 and 57–64): for each index `i`,
`t = N > 1 ? i/(N-1) : 0`, `logF = LOG_F_MIN + t*(LOG_F_MAX - LOG_F_MIN)`,
`baseFreq = eigenFreq = exp(logF)`. -/
noncomputable def assignSquareFreqs (l : List SquareMode) : List SquareMode :=
  let N := l.length
  l.mapIdx fun i mode =>
    let t : ℝ := if N > 1 then (i : ℝ) / ((N : ℝ) - 1) else 0
    let logF := LOG_F_MIN + t * (LOG_F_MAX - LOG_F_MIN)
    let baseFreq := Real.exp logF
    { mode with baseFreq := baseFreq, eigenFreq := baseFreq }

/-- Circle version of the frequency-assignment loop. -/
noncomputable def assignCircleFreqs (l : List CircleMode) : List CircleMode :=
  let N := l.length
  l.mapIdx fun i mode =>
    let t : ℝ := if N > 1 then (i : ℝ) / ((N : ℝ) - 1) else 0
    let logF := LOG_F_MIN + t * (LOG_F_MAX - LOG_F_MIN)
    let baseFreq := Real.exp logF
    { mode with baseFreq := baseFreq, eigenFreq := baseFreq }

/-- The pre-sort list `tmp` of `buildSquareModes`: one record per enumerated
pair, with `modeIndex = Math.sqrt(m*m + n*n)`. -/
noncomputable def squareTmp (maxM maxN : ℕ) : List SquareMode :=
  (squarePairs maxM maxN).map fun p =>
    { m := p.1, n := p.2,
      modeIndex := Real.sqrt ((p.1 : ℝ) * p.1 + (p.2 : ℝ) * p.2) }

/-- The pre-sort list `tmp` of `buildCircleModes`. -/
noncomputable def circleTmp (maxM maxRadial : ℕ) : List CircleMode :=
  (circlePairs maxM maxRadial).map fun p =>
    { m := p.1, nRadial := p.2,
      modeIndex := Real.sqrt ((p.1 : ℝ) * p.1 + (p.2 : ℝ) * p.2) }

/-- Source function `buildSquareModes(maxM, maxN)` from `render.js`: enumerate pairs with
`modeIndex = sqrt(m² + n²)`, sort stably by `modeIndex` (JS
`Array.prototype.sort` is stable; modelled by the stable `List.mergeSort`),
then assign log-uniform base frequencies. -/
noncomputable def buildSquareModes (maxM maxN : ℕ) : List SquareMode :=
  assignSquareFreqs ((squareTmp maxM maxN).mergeSort squareLE)

/-- Source function `buildCircleModes(maxM, maxRadial)` from `render.js`. -/
noncomputable def buildCircleModes (maxM maxRadial : ℕ) : List CircleMode :=
  assignCircleFreqs ((circleTmp maxM maxRadial).mergeSort circleLE)

/-- Source method `updateModeFrequencies()` from `render.js`: with `L = plateSize || 1`
and `scale = 1/(L*L)`, set `eigenFreq = baseFreq * scale` on every entry
of both catalogs.  Modelled as a function from the current pair of catalogs
to the updated pair. -/
noncomputable def updateModeFrequencies (plateSize : ℝ)
    (squareModes : List SquareMode) (circleModes : List CircleMode) :
    List SquareMode × List CircleMode :=
  let L := if plateSize = 0 then 1 else plateSize
  let scale := 1 / (L * L)
  (squareModes.map fun mode => { mode with eigenFreq := mode.baseFreq * scale },
   circleModes.map fun mode => { mode with eigenFreq := mode.baseFreq * scale })

/-! ## `render.js`: frequency-to-blend mapping -/

/-- The plate shape (`this.params.shape`). -/
inductive Shape
  | square
  | circle
deriving DecidableEq

/-- The mode-record type used for a given shape. -/
def ModeT : Shape → Type
  | .square => SquareMode
  | .circle => CircleMode

/-- The blend descriptor returned by `computeBlendInfo`
(`{shape, freqHz, plateSize, mode0, mode1, alpha}`); `mode0`/`mode1` are
nullable in JS, hence `Option`. -/
structure BlendInfo (α : Type) where
  shape : Shape
  freqHz : ℝ
  plateSize : ℝ
  mode0 : Option α
  mode1 : Option α
  alpha : ℝ

/-- The continuous interpolation index `p` computed inside
`computeBlendInfo` (`render.js` lines 188–199): clamp the drive frequency,
undo the size scaling (`fBase = driveHz * plateSize²`), clamp again, map to
`t ∈ [0,1]` on the log-frequency axis, and scale by `N - 1`.
`plateSize || 1` is modelled as `if plateSize = 0 then 1 else plateSize`. -/
noncomputable def pIndex (N : ℕ) (plateSize0 freqHz : ℝ) : ℝ :=
  let plateSize := if plateSize0 = 0 then 1 else plateSize0
  let driveHz := max F_MIN (min F_MAX freqHz)
  let fBase := driveHz * plateSize * plateSize
  let logFBase := Real.log (max F_MIN (min F_MAX fBase))
  let t := (logFBase - LOG_F_MIN) / (LOG_F_MAX - LOG_F_MIN)
  let tClamped := max 0 (min 1 t)
  tClamped * ((N : ℝ) - 1)

/-- Source method `computeBlendInfo()` from `render.js`: for an empty catalog return the
null descriptor with `alpha = 0`; otherwise `i0 = floor(p)`,
`i1 = min(i0 + 1, N - 1)`, `alpha = p - i0`.  Array indexing is modelled
with `List.get?` (out-of-range gives `none`, like JS `undefined`). -/
noncomputable def computeBlendInfo {α : Type} (shape : Shape) (modes : List α)
    (freqHz plateSize0 : ℝ) : BlendInfo α :=
  let N := modes.length
  if N = 0 then
    { shape := shape, freqHz := freqHz, plateSize := plateSize0,
      mode0 := none, mode1 := none, alpha := 0 }
  else
    let plateSize := if plateSize0 = 0 then 1 else plateSize0
    let driveHz := max F_MIN (min F_MAX freqHz)
    let p := pIndex N plateSize0 freqHz
    let i0 := (⌊p⌋).toNat
    let i1 := min (i0 + 1) (N - 1)
    let alpha := p - (i0 : ℝ)
    { shape := shape, freqHz := driveHz, plateSize := plateSize,
      mode0 := modes[i0]?, mode1 := modes[i1]?, alpha := alpha }

/-! ## `render.js`: field sampling (`recomputeField`) -/

/-- The inside-plate membership test (`render.js` lines 241–246):
square → `|xNorm| ≤ 1 ∧ |yNorm| ≤ 1`; circle → `hypot(xNorm, yNorm) ≤ 1`. -/
noncomputable def insidePlate (shape : Shape) (xNorm yNorm : ℝ) : Prop :=
  match shape with
  | .square => |xNorm| ≤ 1 ∧ |yNorm| ≤ 1
  | .circle => hypot xNorm yNorm ≤ 1

noncomputable instance (shape : Shape) (xNorm yNorm : ℝ) :
    Decidable (insidePlate shape xNorm yNorm) := by
  unfold insidePlate; cases shape <;> infer_instance

/-- The blended displacement `(1 - alpha) * v0 + alpha * v1` at a point
(`render.js` lines 253–282), dispatching on shape exactly as the source. -/
noncomputable def blendDisplacement :
    (shape : Shape) → ModeT shape → ModeT shape → ℝ → ℝ → ℝ → ℝ
  | .square, mode0, mode1, alpha, xNorm, yNorm =>
      (1 - alpha) * squareModeDisplacement xNorm yNorm mode0.m mode0.n
        + alpha * squareModeDisplacement xNorm yNorm mode1.m mode1.n
  | .circle, mode0, mode1, alpha, xNorm, yNorm =>
      (1 - alpha) * circleModeDisplacement xNorm yNorm mode0.m mode0.nRadial
        + alpha * circleModeDisplacement xNorm yNorm mode1.m mode1.nRadial

/-- The amplitude stored at grid cell `(j, i)` in the first sampling pass:
`0` outside the plate, the blended displacement inside.  The grid has
`xNorm = -1 + i * step`, `yNorm = -1 + j * step`, `step = 2/(res - 1)`. -/
noncomputable def amplitudeAt (shape : Shape) (mode0 mode1 : ModeT shape)
    (alpha : ℝ) (res : ℕ) (j i : ℕ) : ℝ :=
  let step := 2 / ((res : ℝ) - 1)
  let yNorm := -1 + (j : ℝ) * step
  let xNorm := -1 + (i : ℝ) * step
  if insidePlate shape xNorm yNorm then
    blendDisplacement shape mode0 mode1 alpha xNorm yNorm
  else 0

/-- The row-major amplitude array written by the first sampling pass
(`j` outer, `i` inner, `render.js` lines 236–288). -/
noncomputable def amplitudeList (shape : Shape) (mode0 mode1 : ModeT shape)
    (alpha : ℝ) (res : ℕ) : List ℝ :=
  (List.range res).flatMap fun j =>
    (List.range res).map fun i => amplitudeAt shape mode0 mode1 alpha res j i

/-- The running maximum `maxAbs` of the first pass: starts at `0`, updated
by `if (absVal > maxAbs) maxAbs = absVal`.  (The source skips the update at
outside-plate points, which is equivalent because those store `0` and the
accumulator never drops below its initial `0`.) -/
noncomputable def maxAbsOf (amps : List ℝ) : ℝ :=
  amps.foldl (fun acc v => if |v| > acc then |v| else acc) 0

/-- The nodal-detection threshold (`render.js` lines 290–291):
`nodeThreshold * (maxAbs > 0 ? maxAbs : 1)`. -/
noncomputable def fieldThreshold (tau maxAbs : ℝ) : ℝ :=
  tau * (if maxAbs > 0 then maxAbs else 1)

/-- The threshold formula exactly as the specification words it:
`τ * max(maxAbs, 1)`.  Stated separately so the code's threshold can be
compared against it. -/
noncomputable def fieldThresholdSpec (tau maxAbs : ℝ) : ℝ :=
  tau * max maxAbs 1

/-- The second sampling pass (`render.js` lines 293–307): collect the pixel
position of every grid point whose stored amplitude satisfies
`|val| ≤ threshold`.  The source pushes the coordinates flat
(`push(px, py)`); here each point is a pair. -/
noncomputable def nodalPointList (shape : Shape) (mode0 mode1 : ModeT shape)
    (alpha : ℝ) (res : ℕ) (cx cy halfPlatePix threshold : ℝ) : List (ℝ × ℝ) :=
  (List.range res).flatMap fun j =>
    (List.range res).filterMap fun (i : ℕ) =>
      let step := 2 / ((res : ℝ) - 1)
      let yNorm := -1 + (j : ℝ) * step
      let xNorm := -1 + (i : ℝ) * step
      let val := amplitudeAt shape mode0 mode1 alpha res j i
      if |val| ≤ threshold then
        some (cx + xNorm * halfPlatePix, cy - yNorm * halfPlatePix)
      else none

/-- Source method `recomputeField()` from `render.js` (lines 211–310), as a function from
the blend descriptor, canvas size, resolution and threshold fraction to the
nodal point list.  The early return (`!width || !height || !mode0 ||
!mode1`) yields the empty list. -/
noncomputable def recomputeField (shape : Shape) (blend : BlendInfo (ModeT shape))
    (width height : ℝ) (res : ℕ) (tau : ℝ) : List (ℝ × ℝ) :=
  match blend.mode0, blend.mode1 with
  | some mode0, some mode1 =>
      if width = 0 ∨ height = 0 then []
      else
        let minDim := min width height
        let halfPlatePix := 0.45 * minDim * blend.plateSize
        let cx := width / 2
        let cy := height / 2
        let maxAbs := maxAbsOf (amplitudeList shape mode0 mode1 blend.alpha res)
        let threshold := fieldThreshold tau maxAbs
        nodalPointList shape mode0 mode1 blend.alpha res cx cy halfPlatePix threshold
  | _, _ => []

/-! ## `render.js`: mode summary (`getActiveModeSummary`) -/

/-- A mode annotated with its blend weight (`{ ...mode, weight }`). -/
structure WeightedMode (α : Type) where
  mode : α
  weight : ℝ

/-- The primary/secondary labelling of `getActiveModeSummary`
(`render.js` lines 417–427): `null` pair when either mode is absent;
otherwise `mode0` is primary when `alpha < 0.5`, else `mode1`. -/
noncomputable def primarySecondary {α : Type} :
    Option α → Option α → ℝ → Option (WeightedMode α) × Option (WeightedMode α)
  | some m0, some m1, alpha =>
      if alpha < 0.5 then (some ⟨m0, 1 - alpha⟩, some ⟨m1, alpha⟩)
      else (some ⟨m1, alpha⟩, some ⟨m0, 1 - alpha⟩)
  | _, _, _ => (none, none)

/-- A concrete square-mode record used to instantiate universally
quantified catalog theorems at a specific input. -/
noncomputable def sampleSquareMode : SquareMode :=
  { m := 1, n := 2, modeIndex := 5, baseFreq := 20, eigenFreq := 20 }

/-- A second concrete square-mode record, with the indices of
`sampleSquareMode` swapped. -/
noncomputable def sampleSquareMode2 : SquareMode :=
  { m := 2, n := 1, modeIndex := 5, baseFreq := 28, eigenFreq := 28 }

/-- A concrete circle-mode record used to instantiate universally
quantified theorems at a specific input. -/
noncomputable def sampleCircleMode : CircleMode :=
  { m := 0, nRadial := 1, modeIndex := 1, baseFreq := 20, eigenFreq := 20 }

/-! ## Claim theorems -/

/-- Claim C4: for every normalized point and all integer indices, the square
displacement function returns exactly 0 whenever `m = n`, and otherwise
returns `cos(nπX)cos(mπY) − cos(mπX)cos(nπY)` with `X = (xn+1)/2`,
`Y = (yn+1)/2`. -/
theorem squareDisplacement_matches_spec (x y : ℝ) (m n : ℤ) :
    (m = n → squareModeDisplacement x y m n = 0) ∧
    (m ≠ n → squareModeDisplacement x y m n = squareDisplacementSpec x y m n) := by
  constructor
  · intro h
    simp [squareModeDisplacement, h]
  · intro h
    have e : ∀ z : ℝ, (z + 1) * (0.5 : ℝ) = (z + 1) / 2 := fun z => by ring
    simp only [squareModeDisplacement, squareDisplacementSpec, if_neg h, e]

theorem squareDisplacement_matches_spec_witness :
    squareModeDisplacement 0 0 1 1 = 0 ∧
    squareModeDisplacement 0 0 1 2 = squareDisplacementSpec 0 0 1 2 :=
  ⟨(squareDisplacement_matches_spec 0 0 1 1).1 rfl,
   (squareDisplacement_matches_spec 0 0 1 2).2 (by decide)⟩

/-- Claim C5: for every normalized point and all integer indices, the circular
displacement function returns exactly 0 whenever `hypot(xn, yn) > 1`, and
otherwise returns `cos(m·θ)·cos(nr·π·r)·exp(−1.2·r²)` with
`r = hypot(xn, yn)`, `θ = atan2(yn, xn)`. -/
theorem circleDisplacement_matches_spec (x y : ℝ) (m nr : ℤ) :
    (hypot x y > 1 → circleModeDisplacement x y m nr = 0) ∧
    (¬ hypot x y > 1 → circleModeDisplacement x y m nr = circleDisplacementSpec x y m nr) := by
  constructor
  · intro h
    simp [circleModeDisplacement, h]
  · intro h
    simp only [circleModeDisplacement, circleDisplacementSpec, radialMode, if_neg h]
    ring_nf

theorem circleDisplacement_matches_spec_witness :
    circleModeDisplacement 2 0 1 1 = 0 ∧
    circleModeDisplacement 0 0 1 1 = circleDisplacementSpec 0 0 1 1 := by
  refine ⟨(circleDisplacement_matches_spec 2 0 1 1).1 ?_,
          (circleDisplacement_matches_spec 0 0 1 1).2 ?_⟩
  · show 1 < hypot 2 0
    unfold hypot
    rw [show (2:ℝ) * 2 + 0 * 0 = 4 by norm_num]
    rw [show (1:ℝ) = Real.sqrt 1 by simp]
    exact Real.sqrt_lt_sqrt (by norm_num) (by norm_num)
  · show ¬ 1 < hypot 0 0
    unfold hypot
    norm_num

/-- Claim C2 counterexample: at `alpha = 0.5` exactly, the summary labels
`mode1` (not `mode0`, as the claim states) as the primary mode. -/
theorem primarySecondary_tie_cex :
    (primarySecondary (some (0 : ℕ)) (some 1) (1/2)).1 ≠ some ⟨0, 1 - (1/2)⟩ := by
  simp only [primarySecondary]
  rw [if_neg (by norm_num)]
  simp

/-- Claim C2 (amended): the summary labels as `primaryMode` whichever of the
two modes has blend weight ≥ 0.5 (mode0's weight being `1 − alpha`, mode1's
being `alpha`); when both weights equal 0.5 exactly the tie is resolved in
favor of `mode1` as primary; the other mode becomes `secondaryMode`, each
annotated with its blend weight. -/
theorem primarySecondary_amended {α : Type} (m0 m1 : α) (alpha : ℝ) :
    (∀ w : WeightedMode α,
        (primarySecondary (some m0) (some m1) alpha).1 = some w → 1/2 ≤ w.weight) ∧
    (alpha = 0.5 →
        primarySecondary (some m0) (some m1) alpha
          = (some ⟨m1, alpha⟩, some ⟨m0, 1 - alpha⟩)) ∧
    (alpha < 0.5 →
        primarySecondary (some m0) (some m1) alpha
          = (some ⟨m0, 1 - alpha⟩, some ⟨m1, alpha⟩)) ∧
    (0.5 < alpha →
        primarySecondary (some m0) (some m1) alpha
          = (some ⟨m1, alpha⟩, some ⟨m0, 1 - alpha⟩)) := by
  simp only [primarySecondary]
  refine ⟨?_, ?_, ?_, ?_⟩
  · intro w hw
    by_cases h : alpha < 0.5
    · rw [if_pos h] at hw
      simp only [Option.some.injEq] at hw
      subst hw
      show 1 / 2 ≤ 1 - alpha
      norm_num at h ⊢
      linarith
    · rw [if_neg h] at hw
      simp only [Option.some.injEq] at hw
      subst hw
      show 1 / 2 ≤ alpha
      norm_num at h ⊢
      linarith
  · intro h
    rw [if_neg (by rw [h]; exact lt_irrefl _)]
  · intro h
    rw [if_pos h]
  · intro h
    rw [if_neg (not_lt.mpr h.le)]

theorem primarySecondary_amended_witness :
    primarySecondary (some (0 : ℕ)) (some 1) (0.5 : ℝ)
      = (some ⟨1, (0.5 : ℝ)⟩, some ⟨0, 1 - (0.5 : ℝ)⟩) :=
  (primarySecondary_amended 0 1 (0.5 : ℝ)).2.1 rfl

/-- Claim C9: for every strictly positive plate size `L`, the rescaling
operation sets `eigenFreq = baseFreq / L²` on every entry of both shape
catalogs and changes no other field of any entry. -/
theorem updateModeFrequencies_rescales (plateSize : ℝ)
    (squareModes : List SquareMode) (circleModes : List CircleMode) (i : ℕ)
    (hL : 0 < plateSize) :
    ((updateModeFrequencies plateSize squareModes circleModes).1[i]?
        = (squareModes[i]?).map fun mode =>
            { mode with eigenFreq := mode.baseFreq / plateSize ^ 2 }) ∧
    ((updateModeFrequencies plateSize squareModes circleModes).2[i]?
        = (circleModes[i]?).map fun mode =>
            { mode with eigenFreq := mode.baseFreq / plateSize ^ 2 }) := by
  have hne : plateSize ≠ 0 := ne_of_gt hL
  unfold updateModeFrequencies
  simp only [if_neg hne, List.getElem?_map]
  constructor <;>
  · congr 1
    funext mode
    congr 1
    rw [pow_two]
    ring

theorem updateModeFrequencies_rescales_witness :
    (0 : ℝ) < 2 ∧
    ((updateModeFrequencies 2 [sampleSquareMode] []).1[0]?
      = (([sampleSquareMode] : List SquareMode)[0]?).map fun mode =>
          { mode with eigenFreq := mode.baseFreq / (2 : ℝ) ^ 2 }) :=
  ⟨by norm_num,
   (updateModeFrequencies_rescales 2 [sampleSquareMode] [] 0 (by norm_num)).1⟩

/-- Claim C8: when the mode catalog is empty, the blend computation returns a
descriptor with no modes and `alpha = 0`, and the field sampler then returns
an empty nodal point set, for every frequency, plate-size, canvas-size,
resolution and threshold input (both operations are total Lean functions, so
no exception is possible). -/
theorem emptyCatalog_blend_and_field (shape : Shape)
    (freqHz plateSize width height : ℝ) (res : ℕ) (tau : ℝ) :
    (computeBlendInfo shape ([] : List (ModeT shape)) freqHz plateSize).mode0 = none ∧
    (computeBlendInfo shape ([] : List (ModeT shape)) freqHz plateSize).mode1 = none ∧
    (computeBlendInfo shape ([] : List (ModeT shape)) freqHz plateSize).alpha = 0 ∧
    recomputeField shape (computeBlendInfo shape ([] : List (ModeT shape)) freqHz plateSize)
      width height res tau = [] := by
  unfold computeBlendInfo recomputeField
  simp

/-- Claim C3: for every fixed plate size and every catalog size `N ≥ 1`, the
interpolation index `p` computed by the frequency-to-blend mapping is a
monotonically non-decreasing function of the driving frequency. -/
theorem pIndex_monotone (N : ℕ) (plateSize f1 f2 : ℝ)
    (hN : 1 ≤ N) (h12 : f1 ≤ f2) :
    pIndex N plateSize f1 ≤ pIndex N plateSize f2 := by
  unfold pIndex
  set L := if plateSize = 0 then 1 else plateSize with hLdef
  have hL2 : 0 ≤ L * L := mul_self_nonneg L
  have hdrive : max F_MIN (min F_MAX f1) ≤ max F_MIN (min F_MAX f2) :=
    max_le_max le_rfl (min_le_min le_rfl h12)
  have hfb : max F_MIN (min F_MAX f1) * L * L ≤ max F_MIN (min F_MAX f2) * L * L := by
    rw [mul_assoc, mul_assoc]
    exact mul_le_mul_of_nonneg_right hdrive hL2
  have hclamp : max F_MIN (min F_MAX (max F_MIN (min F_MAX f1) * L * L))
      ≤ max F_MIN (min F_MAX (max F_MIN (min F_MAX f2) * L * L)) :=
    max_le_max le_rfl (min_le_min le_rfl hfb)
  have hFpos : (0 : ℝ) < F_MIN := by norm_num [F_MIN]
  have hpos1 : (0 : ℝ) < max F_MIN (min F_MAX (max F_MIN (min F_MAX f1) * L * L)) :=
    lt_of_lt_of_le hFpos (le_max_left _ _)
  have hlog : Real.log (max F_MIN (min F_MAX (max F_MIN (min F_MAX f1) * L * L)))
      ≤ Real.log (max F_MIN (min F_MAX (max F_MIN (min F_MAX f2) * L * L))) :=
    Real.log_le_log hpos1 hclamp
  have hden : (0 : ℝ) < LOG_F_MAX - LOG_F_MIN := by
    have : Real.log F_MIN < Real.log F_MAX := by
      apply Real.log_lt_log hFpos
      norm_num [F_MIN, F_MAX]
    simp only [LOG_F_MAX, LOG_F_MIN]
    linarith
  have ht : (Real.log (max F_MIN (min F_MAX (max F_MIN (min F_MAX f1) * L * L)))
        - LOG_F_MIN) / (LOG_F_MAX - LOG_F_MIN)
      ≤ (Real.log (max F_MIN (min F_MAX (max F_MIN (min F_MAX f2) * L * L)))
        - LOG_F_MIN) / (LOG_F_MAX - LOG_F_MIN) := by
    apply div_le_div_of_nonneg_right _ hden.le
    · linarith
  have htc : max 0 (min 1 ((Real.log (max F_MIN (min F_MAX (max F_MIN (min F_MAX f1) * L * L)))
        - LOG_F_MIN) / (LOG_F_MAX - LOG_F_MIN)))
      ≤ max 0 (min 1 ((Real.log (max F_MIN (min F_MAX (max F_MIN (min F_MAX f2) * L * L)))
        - LOG_F_MIN) / (LOG_F_MAX - LOG_F_MIN))) :=
    max_le_max le_rfl (min_le_min le_rfl ht)
  have hN1 : (0 : ℝ) ≤ (N : ℝ) - 1 := by
    have : (1 : ℝ) ≤ (N : ℝ) := by exact_mod_cast hN
    linarith
  exact mul_le_mul_of_nonneg_right htc hN1

theorem pIndex_monotone_witness :
    ((1 ≤ 42) ∧ (100 : ℝ) ≤ 200) ∧ pIndex 42 1 100 ≤ pIndex 42 1 200 :=
  ⟨⟨by norm_num, by norm_num⟩, pIndex_monotone 42 1 100 200 (by norm_num) (by norm_num)⟩

/-! ### Helper lemmas for the catalog builders -/

theorem assignSquareFreqs_getElem? (l : List SquareMode) (i : ℕ) :
    (assignSquareFreqs l)[i]? = (l[i]?).map fun mode =>
      { mode with
        baseFreq := Real.exp (LOG_F_MIN
          + (if l.length > 1 then (i : ℝ) / ((l.length : ℝ) - 1) else 0)
            * (LOG_F_MAX - LOG_F_MIN)),
        eigenFreq := Real.exp (LOG_F_MIN
          + (if l.length > 1 then (i : ℝ) / ((l.length : ℝ) - 1) else 0)
            * (LOG_F_MAX - LOG_F_MIN)) } := by
  simp [assignSquareFreqs]

theorem assignCircleFreqs_getElem? (l : List CircleMode) (i : ℕ) :
    (assignCircleFreqs l)[i]? = (l[i]?).map fun mode =>
      { mode with
        baseFreq := Real.exp (LOG_F_MIN
          + (if l.length > 1 then (i : ℝ) / ((l.length : ℝ) - 1) else 0)
            * (LOG_F_MAX - LOG_F_MIN)),
        eigenFreq := Real.exp (LOG_F_MIN
          + (if l.length > 1 then (i : ℝ) / ((l.length : ℝ) - 1) else 0)
            * (LOG_F_MAX - LOG_F_MIN)) } := by
  simp [assignCircleFreqs]

theorem length_buildSquareModes (maxM maxN : ℕ) :
    (buildSquareModes maxM maxN).length = ((squareTmp maxM maxN).mergeSort squareLE).length := by
  simp [buildSquareModes, assignSquareFreqs]

theorem length_buildCircleModes (maxM maxRadial : ℕ) :
    (buildCircleModes maxM maxRadial).length
      = ((circleTmp maxM maxRadial).mergeSort circleLE).length := by
  simp [buildCircleModes, assignCircleFreqs]

theorem buildSquareModes_baseFreq (maxM maxN i : ℕ)
    (hi : i < (buildSquareModes maxM maxN).length) :
    ((buildSquareModes maxM maxN).get ⟨i, hi⟩).baseFreq
      = Real.exp (LOG_F_MIN
          + ((i : ℝ) / (((buildSquareModes maxM maxN).length : ℝ) - 1))
            * (LOG_F_MAX - LOG_F_MIN)) := by
  have hlen := length_buildSquareModes maxM maxN
  have hi' : i < ((squareTmp maxM maxN).mergeSort squareLE).length := hlen ▸ hi
  have h1 : (buildSquareModes maxM maxN)[i]?
      = some ((buildSquareModes maxM maxN).get ⟨i, hi⟩) := by
    rw [List.get_eq_getElem]
    exact List.getElem?_eq_getElem hi
  have h2 := assignSquareFreqs_getElem? ((squareTmp maxM maxN).mergeSort squareLE) i
  rw [List.getElem?_eq_getElem hi'] at h2
  have hbuild : buildSquareModes maxM maxN
      = assignSquareFreqs ((squareTmp maxM maxN).mergeSort squareLE) := rfl
  rw [← hbuild, h1, Option.map_some'] at h2
  have h3 := Option.some.inj h2
  rw [h3]
  simp only [hlen]
  rcases Nat.lt_or_ge 1 ((squareTmp maxM maxN).mergeSort squareLE).length with hN | hN
  · rw [if_pos hN]
  · rw [if_neg (not_lt.mpr hN)]
    have hone : ((squareTmp maxM maxN).mergeSort squareLE).length = 1 := by omega
    have hzero : i = 0 := by omega
    rw [hone, hzero]
    norm_num

theorem buildCircleModes_baseFreq (maxM maxRadial i : ℕ)
    (hi : i < (buildCircleModes maxM maxRadial).length) :
    ((buildCircleModes maxM maxRadial).get ⟨i, hi⟩).baseFreq
      = Real.exp (LOG_F_MIN
          + ((i : ℝ) / (((buildCircleModes maxM maxRadial).length : ℝ) - 1))
            * (LOG_F_MAX - LOG_F_MIN)) := by
  have hlen := length_buildCircleModes maxM maxRadial
  have hi' : i < ((circleTmp maxM maxRadial).mergeSort circleLE).length := hlen ▸ hi
  have h1 : (buildCircleModes maxM maxRadial)[i]?
      = some ((buildCircleModes maxM maxRadial).get ⟨i, hi⟩) := by
    rw [List.get_eq_getElem]
    exact List.getElem?_eq_getElem hi
  have h2 := assignCircleFreqs_getElem? ((circleTmp maxM maxRadial).mergeSort circleLE) i
  rw [List.getElem?_eq_getElem hi'] at h2
  have hbuild : buildCircleModes maxM maxRadial
      = assignCircleFreqs ((circleTmp maxM maxRadial).mergeSort circleLE) := rfl
  rw [← hbuild, h1, Option.map_some'] at h2
  have h3 := Option.some.inj h2
  rw [h3]
  simp only [hlen]
  rcases Nat.lt_or_ge 1 ((circleTmp maxM maxRadial).mergeSort circleLE).length with hN | hN
  · rw [if_pos hN]
  · rw [if_neg (not_lt.mpr hN)]
    have hone : ((circleTmp maxM maxRadial).mergeSort circleLE).length = 1 := by omega
    have hzero : i = 0 := by omega
    rw [hone, hzero]
    norm_num

/-- Claim C6: for every catalog of either shape, the `i`-th mode's base
frequency equals `exp(log 20 + (i/(N−1)) · (log 20000 − log 20))` where `N`
is the catalog length (with the convention `0/0 = 0`, which matches the
source's `t = 0` branch); in the degenerate case `N = 1` the single mode's
base frequency equals 20 Hz. -/
theorem baseFreq_log_uniform (maxM maxN maxRadial i : ℕ) :
    (∀ hi : i < (buildSquareModes maxM maxN).length,
       ((buildSquareModes maxM maxN).get ⟨i, hi⟩).baseFreq
         = Real.exp (Real.log 20
             + ((i : ℝ) / (((buildSquareModes maxM maxN).length : ℝ) - 1))
               * (Real.log 20000 - Real.log 20))) ∧
    (∀ hi : i < (buildCircleModes maxM maxRadial).length,
       ((buildCircleModes maxM maxRadial).get ⟨i, hi⟩).baseFreq
         = Real.exp (Real.log 20
             + ((i : ℝ) / (((buildCircleModes maxM maxRadial).length : ℝ) - 1))
               * (Real.log 20000 - Real.log 20))) ∧
    ((buildSquareModes maxM maxN).length = 1 →
       ∀ hi : i < (buildSquareModes maxM maxN).length,
         ((buildSquareModes maxM maxN).get ⟨i, hi⟩).baseFreq = 20) ∧
    ((buildCircleModes maxM maxRadial).length = 1 →
       ∀ hi : i < (buildCircleModes maxM maxRadial).length,
         ((buildCircleModes maxM maxRadial).get ⟨i, hi⟩).baseFreq = 20) := by
  have hS : ∀ hi : i < (buildSquareModes maxM maxN).length,
      ((buildSquareModes maxM maxN).get ⟨i, hi⟩).baseFreq
        = Real.exp (Real.log 20
            + ((i : ℝ) / (((buildSquareModes maxM maxN).length : ℝ) - 1))
              * (Real.log 20000 - Real.log 20)) := by
    intro hi
    rw [buildSquareModes_baseFreq maxM maxN i hi]
    simp [LOG_F_MIN, LOG_F_MAX, F_MIN, F_MAX]
  have hC : ∀ hi : i < (buildCircleModes maxM maxRadial).length,
      ((buildCircleModes maxM maxRadial).get ⟨i, hi⟩).baseFreq
        = Real.exp (Real.log 20
            + ((i : ℝ) / (((buildCircleModes maxM maxRadial).length : ℝ) - 1))
              * (Real.log 20000 - Real.log 20)) := by
    intro hi
    rw [buildCircleModes_baseFreq maxM maxRadial i hi]
    simp [LOG_F_MIN, LOG_F_MAX, F_MIN, F_MAX]
  refine ⟨hS, hC, ?_, ?_⟩
  · intro hone hi
    rw [hS hi, hone]
    have : i = 0 := by omega
    subst this
    norm_num
    exact Real.exp_log (by norm_num)
  · intro hone hi
    rw [hC hi, hone]
    have : i = 0 := by omega
    subst this
    norm_num
    exact Real.exp_log (by norm_num)

theorem length_buildSquareModes22 : (buildSquareModes 2 2).length = 2 := by
  rw [length_buildSquareModes, List.length_mergeSort]
  unfold squareTmp
  rw [List.length_map]
  decide

theorem length_buildCircleModes01 : (buildCircleModes 0 1).length = 1 := by
  rw [length_buildCircleModes, List.length_mergeSort]
  unfold circleTmp
  rw [List.length_map]
  decide

theorem baseFreq_log_uniform_witness :
    ((buildSquareModes 2 2).get ⟨0, by rw [length_buildSquareModes22]; norm_num⟩).baseFreq
      = Real.exp (Real.log 20
          + (((0 : ℕ) : ℝ) / (((buildSquareModes 2 2).length : ℝ) - 1))
            * (Real.log 20000 - Real.log 20)) ∧
    ((buildCircleModes 0 1).get ⟨0, by rw [length_buildCircleModes01]; norm_num⟩).baseFreq
      = 20 :=
  ⟨(baseFreq_log_uniform 2 2 1 0).1 _,
   (baseFreq_log_uniform 0 0 1 0).2.2.2 length_buildCircleModes01 _⟩

/-! ### Helper lemmas for sortedness and stability (claim C7) -/

theorem squareLE_trans (a b c : SquareMode) (h1 : squareLE a b) (h2 : squareLE b c) :
    squareLE a c := by
  simp only [squareLE, decide_eq_true_eq] at *
  exact le_trans h1 h2

theorem squareLE_total (a b : SquareMode) : squareLE a b || squareLE b a := by
  simp only [squareLE]
  rcases le_total a.modeIndex b.modeIndex with h | h <;> simp [h]

theorem circleLE_trans (a b c : CircleMode) (h1 : circleLE a b) (h2 : circleLE b c) :
    circleLE a c := by
  simp only [circleLE, decide_eq_true_eq] at *
  exact le_trans h1 h2

theorem circleLE_total (a b : CircleMode) : circleLE a b || circleLE b a := by
  simp only [circleLE]
  rcases le_total a.modeIndex b.modeIndex with h | h <;> simp [h]

theorem assignSquareFreqs_map_mni (l : List SquareMode) :
    (assignSquareFreqs l).map (fun mode => (mode.m, mode.n, mode.modeIndex))
      = l.map (fun mode => (mode.m, mode.n, mode.modeIndex)) := by
  unfold assignSquareFreqs
  rw [List.mapIdx_eq_enum_map, List.map_map]
  have : ((fun mode => (mode.m, mode.n, mode.modeIndex))
        ∘ Function.uncurry fun (i : ℕ) (mode : SquareMode) =>
            ({ mode with
               baseFreq := Real.exp (LOG_F_MIN
                 + (if l.length > 1 then (i : ℝ) / ((l.length : ℝ) - 1) else 0)
                   * (LOG_F_MAX - LOG_F_MIN)),
               eigenFreq := Real.exp (LOG_F_MIN
                 + (if l.length > 1 then (i : ℝ) / ((l.length : ℝ) - 1) else 0)
                   * (LOG_F_MAX - LOG_F_MIN)) } : SquareMode))
      = (fun mode => (mode.m, mode.n, mode.modeIndex)) ∘ Prod.snd := rfl
  rw [this, ← List.map_map, List.enum_map_snd]

theorem assignCircleFreqs_map_mni (l : List CircleMode) :
    (assignCircleFreqs l).map (fun mode => (mode.m, mode.nRadial, mode.modeIndex))
      = l.map (fun mode => (mode.m, mode.nRadial, mode.modeIndex)) := by
  unfold assignCircleFreqs
  rw [List.mapIdx_eq_enum_map, List.map_map]
  have : ((fun mode => (mode.m, mode.nRadial, mode.modeIndex))
        ∘ Function.uncurry fun (i : ℕ) (mode : CircleMode) =>
            ({ mode with
               baseFreq := Real.exp (LOG_F_MIN
                 + (if l.length > 1 then (i : ℝ) / ((l.length : ℝ) - 1) else 0)
                   * (LOG_F_MAX - LOG_F_MIN)),
               eigenFreq := Real.exp (LOG_F_MIN
                 + (if l.length > 1 then (i : ℝ) / ((l.length : ℝ) - 1) else 0)
                   * (LOG_F_MAX - LOG_F_MIN)) } : CircleMode))
      = (fun mode => (mode.m, mode.nRadial, mode.modeIndex)) ∘ Prod.snd := rfl
  rw [this, ← List.map_map, List.enum_map_snd]

theorem buildSquareModes_pairwise (maxM maxN : ℕ) :
    (buildSquareModes maxM maxN).Pairwise (fun a b => a.modeIndex ≤ b.modeIndex) := by
  have hs : ((squareTmp maxM maxN).mergeSort squareLE).Pairwise (fun a b => squareLE a b) :=
    List.sorted_mergeSort squareLE_trans squareLE_total _
  have hs' : ((squareTmp maxM maxN).mergeSort squareLE).Pairwise
      (fun a b => a.modeIndex ≤ b.modeIndex) := by
    refine hs.imp ?_
    intro a b h
    simpa [squareLE] using h
  have key : (buildSquareModes maxM maxN).Pairwise
        (fun a b => a.modeIndex ≤ b.modeIndex)
      ↔ ((squareTmp maxM maxN).mergeSort squareLE).Pairwise
        (fun a b => a.modeIndex ≤ b.modeIndex) := by
    constructor
    · intro h
      have := (List.pairwise_map
        (f := fun mode : SquareMode => (mode.m, mode.n, mode.modeIndex))
        (R := fun t1 t2 => t1.2.2 ≤ t2.2.2)).mpr h
      rw [show buildSquareModes maxM maxN
          = assignSquareFreqs ((squareTmp maxM maxN).mergeSort squareLE) from rfl,
        assignSquareFreqs_map_mni] at this
      exact (List.pairwise_map
        (f := fun mode : SquareMode => (mode.m, mode.n, mode.modeIndex))
        (R := fun t1 t2 => t1.2.2 ≤ t2.2.2)).mp this
    · intro h
      have := (List.pairwise_map
        (f := fun mode : SquareMode => (mode.m, mode.n, mode.modeIndex))
        (R := fun t1 t2 => t1.2.2 ≤ t2.2.2)).mpr h
      rw [← assignSquareFreqs_map_mni ((squareTmp maxM maxN).mergeSort squareLE)] at this
      exact (List.pairwise_map
        (f := fun mode : SquareMode => (mode.m, mode.n, mode.modeIndex))
        (R := fun t1 t2 => t1.2.2 ≤ t2.2.2)).mp this
  exact key.mpr hs'

theorem buildCircleModes_pairwise (maxM maxRadial : ℕ) :
    (buildCircleModes maxM maxRadial).Pairwise (fun a b => a.modeIndex ≤ b.modeIndex) := by
  have hs : ((circleTmp maxM maxRadial).mergeSort circleLE).Pairwise (fun a b => circleLE a b) :=
    List.sorted_mergeSort circleLE_trans circleLE_total _
  have hs' : ((circleTmp maxM maxRadial).mergeSort circleLE).Pairwise
      (fun a b => a.modeIndex ≤ b.modeIndex) := by
    refine hs.imp ?_
    intro a b h
    simpa [circleLE] using h
  have := (List.pairwise_map
    (f := fun mode : CircleMode => (mode.m, mode.nRadial, mode.modeIndex))
    (R := fun t1 t2 => t1.2.2 ≤ t2.2.2)).mpr hs'
  rw [← assignCircleFreqs_map_mni ((circleTmp maxM maxRadial).mergeSort circleLE)] at this
  exact (List.pairwise_map
    (f := fun mode : CircleMode => (mode.m, mode.nRadial, mode.modeIndex))
    (R := fun t1 t2 => t1.2.2 ≤ t2.2.2)).mp this

theorem mergeSort_filter_key_sq (l : List SquareMode) (k : ℝ) :
    (l.mergeSort squareLE).filter (fun mode => decide (mode.modeIndex = k))
      = l.filter (fun mode => decide (mode.modeIndex = k)) := by
  set p : SquareMode → Bool := fun mode => decide (mode.modeIndex = k) with hp
  have hmem : ∀ mode : SquareMode, p mode = true → mode.modeIndex = k := by
    intro mode h
    simpa [hp] using h
  have hc : (l.filter p).Pairwise (fun a b => squareLE a b) := by
    apply List.pairwise_of_forall_mem_list
    intro a ha b hb
    have ha' := hmem a (List.of_mem_filter ha)
    have hb' := hmem b (List.of_mem_filter hb)
    simp [squareLE, ha', hb']
  have h1 : List.Sublist (l.filter p) (l.mergeSort squareLE) :=
    List.sublist_mergeSort squareLE_trans squareLE_total hc (List.filter_sublist l)
  have hself : (l.filter p).filter p = l.filter p := by
    rw [List.filter_eq_self]
    intro a ha
    exact List.of_mem_filter ha
  have h2 : List.Sublist (l.filter p) ((l.mergeSort squareLE).filter p) := by
    have := h1.filter p
    rwa [hself] at this
  have hperm : List.Perm ((l.mergeSort squareLE).filter p) (l.filter p) :=
    (List.mergeSort_perm l squareLE).filter p
  exact (h2.eq_of_length hperm.length_eq.symm).symm

theorem mergeSort_filter_key_ci (l : List CircleMode) (k : ℝ) :
    (l.mergeSort circleLE).filter (fun mode => decide (mode.modeIndex = k))
      = l.filter (fun mode => decide (mode.modeIndex = k)) := by
  set p : CircleMode → Bool := fun mode => decide (mode.modeIndex = k) with hp
  have hmem : ∀ mode : CircleMode, p mode = true → mode.modeIndex = k := by
    intro mode h
    simpa [hp] using h
  have hc : (l.filter p).Pairwise (fun a b => circleLE a b) := by
    apply List.pairwise_of_forall_mem_list
    intro a ha b hb
    have ha' := hmem a (List.of_mem_filter ha)
    have hb' := hmem b (List.of_mem_filter hb)
    simp [circleLE, ha', hb']
  have h1 : List.Sublist (l.filter p) (l.mergeSort circleLE) :=
    List.sublist_mergeSort circleLE_trans circleLE_total hc (List.filter_sublist l)
  have hself : (l.filter p).filter p = l.filter p := by
    rw [List.filter_eq_self]
    intro a ha
    exact List.of_mem_filter ha
  have h2 : List.Sublist (l.filter p) ((l.mergeSort circleLE).filter p) := by
    have := h1.filter p
    rwa [hself] at this
  have hperm : List.Perm ((l.mergeSort circleLE).filter p) (l.filter p) :=
    (List.mergeSort_perm l circleLE).filter p
  exact (h2.eq_of_length hperm.length_eq.symm).symm

theorem assignSquareFreqs_filter_key (l : List SquareMode) (k : ℝ) :
    ((assignSquareFreqs l).filter (fun mode => decide (mode.modeIndex = k))).map
        (fun mode => (mode.m, mode.n))
      = (l.filter (fun mode => decide (mode.modeIndex = k))).map
        (fun mode => (mode.m, mode.n)) := by
  have hg := assignSquareFreqs_map_mni l
  set g : SquareMode → ℤ × ℤ × ℝ := fun mode => (mode.m, mode.n, mode.modeIndex) with hgdef
  set q : ℤ × ℤ × ℝ → Bool := fun t => decide (t.2.2 = k) with hqdef
  have e1 : ((assignSquareFreqs l).filter (fun mode => decide (mode.modeIndex = k))).map g
      = ((l.filter (fun mode => decide (mode.modeIndex = k))).map g) := by
    have ea : ((assignSquareFreqs l).map g).filter q
        = ((assignSquareFreqs l).filter (q ∘ g)).map g := List.filter_map g _
    have eb : (l.map g).filter q = (l.filter (q ∘ g)).map g := List.filter_map g _
    have hqg : (q ∘ g) = fun mode : SquareMode => decide (mode.modeIndex = k) := rfl
    rw [hqg] at ea eb
    rw [← ea, ← eb, hg]
  have proj : ∀ s : List SquareMode,
      (s.map g).map (fun t : ℤ × ℤ × ℝ => (t.1, t.2.1)) = s.map (fun mode => (mode.m, mode.n)) := by
    intro s
    rw [List.map_map]
    rfl
  calc ((assignSquareFreqs l).filter (fun mode => decide (mode.modeIndex = k))).map
        (fun mode => (mode.m, mode.n))
      = (((assignSquareFreqs l).filter (fun mode => decide (mode.modeIndex = k))).map g).map
          (fun t : ℤ × ℤ × ℝ => (t.1, t.2.1)) := (proj _).symm
    _ = ((l.filter (fun mode => decide (mode.modeIndex = k))).map g).map
          (fun t : ℤ × ℤ × ℝ => (t.1, t.2.1)) := by rw [e1]
    _ = (l.filter (fun mode => decide (mode.modeIndex = k))).map
          (fun mode => (mode.m, mode.n)) := proj _

theorem assignCircleFreqs_filter_key (l : List CircleMode) (k : ℝ) :
    ((assignCircleFreqs l).filter (fun mode => decide (mode.modeIndex = k))).map
        (fun mode => (mode.m, mode.nRadial))
      = (l.filter (fun mode => decide (mode.modeIndex = k))).map
        (fun mode => (mode.m, mode.nRadial)) := by
  have hg := assignCircleFreqs_map_mni l
  set g : CircleMode → ℤ × ℤ × ℝ := fun mode => (mode.m, mode.nRadial, mode.modeIndex) with hgdef
  set q : ℤ × ℤ × ℝ → Bool := fun t => decide (t.2.2 = k) with hqdef
  have e1 : ((assignCircleFreqs l).filter (fun mode => decide (mode.modeIndex = k))).map g
      = ((l.filter (fun mode => decide (mode.modeIndex = k))).map g) := by
    have ea : ((assignCircleFreqs l).map g).filter q
        = ((assignCircleFreqs l).filter (q ∘ g)).map g := List.filter_map g _
    have eb : (l.map g).filter q = (l.filter (q ∘ g)).map g := List.filter_map g _
    have hqg : (q ∘ g) = fun mode : CircleMode => decide (mode.modeIndex = k) := rfl
    rw [hqg] at ea eb
    rw [← ea, ← eb, hg]
  have proj : ∀ s : List CircleMode,
      (s.map g).map (fun t : ℤ × ℤ × ℝ => (t.1, t.2.1))
        = s.map (fun mode => (mode.m, mode.nRadial)) := by
    intro s
    rw [List.map_map]
    rfl
  calc ((assignCircleFreqs l).filter (fun mode => decide (mode.modeIndex = k))).map
        (fun mode => (mode.m, mode.nRadial))
      = (((assignCircleFreqs l).filter (fun mode => decide (mode.modeIndex = k))).map g).map
          (fun t : ℤ × ℤ × ℝ => (t.1, t.2.1)) := (proj _).symm
    _ = ((l.filter (fun mode => decide (mode.modeIndex = k))).map g).map
          (fun t : ℤ × ℤ × ℝ => (t.1, t.2.1)) := by rw [e1]
    _ = (l.filter (fun mode => decide (mode.modeIndex = k))).map
          (fun mode => (mode.m, mode.nRadial)) := proj _

/-- Claim C7: for both plate shapes, the built catalog's `modeIndex`
(complexity index) sequence is non-decreasing from first to last entry, and
entries with equal `modeIndex` keep their original enumeration order (the
sort is stable): filtering the built catalog to any fixed `modeIndex` value
`k` yields the same index pairs, in the same order, as filtering the
enumeration-order list `tmp`. -/
theorem catalog_sorted_stable (maxM maxN maxRadial : ℕ) :
    (∀ i j (hi : i < (buildSquareModes maxM maxN).length)
        (hj : j < (buildSquareModes maxM maxN).length), i ≤ j →
        ((buildSquareModes maxM maxN).get ⟨i, hi⟩).modeIndex
          ≤ ((buildSquareModes maxM maxN).get ⟨j, hj⟩).modeIndex) ∧
    (∀ k : ℝ,
        ((buildSquareModes maxM maxN).filter (fun mode => decide (mode.modeIndex = k))).map
            (fun mode => (mode.m, mode.n))
          = ((squareTmp maxM maxN).filter (fun mode => decide (mode.modeIndex = k))).map
            (fun mode => (mode.m, mode.n))) ∧
    (∀ i j (hi : i < (buildCircleModes maxM maxRadial).length)
        (hj : j < (buildCircleModes maxM maxRadial).length), i ≤ j →
        ((buildCircleModes maxM maxRadial).get ⟨i, hi⟩).modeIndex
          ≤ ((buildCircleModes maxM maxRadial).get ⟨j, hj⟩).modeIndex) ∧
    (∀ k : ℝ,
        ((buildCircleModes maxM maxRadial).filter (fun mode => decide (mode.modeIndex = k))).map
            (fun mode => (mode.m, mode.nRadial))
          = ((circleTmp maxM maxRadial).filter (fun mode => decide (mode.modeIndex = k))).map
            (fun mode => (mode.m, mode.nRadial))) := by
  refine ⟨?_, ?_, ?_, ?_⟩
  · intro i j hi hj hij
    rcases Nat.lt_or_ge i j with hlt | hge
    · exact List.pairwise_iff_get.mp (buildSquareModes_pairwise maxM maxN) ⟨i, hi⟩ ⟨j, hj⟩ hlt
    · have : i = j := le_antisymm hij hge
      subst this
      exact le_refl _
  · intro k
    have h1 : buildSquareModes maxM maxN
        = assignSquareFreqs ((squareTmp maxM maxN).mergeSort squareLE) := rfl
    rw [h1, assignSquareFreqs_filter_key, mergeSort_filter_key_sq]
  · intro i j hi hj hij
    rcases Nat.lt_or_ge i j with hlt | hge
    · exact List.pairwise_iff_get.mp (buildCircleModes_pairwise maxM maxRadial) ⟨i, hi⟩ ⟨j, hj⟩ hlt
    · have : i = j := le_antisymm hij hge
      subst this
      exact le_refl _
  · intro k
    have h1 : buildCircleModes maxM maxRadial
        = assignCircleFreqs ((circleTmp maxM maxRadial).mergeSort circleLE) := rfl
    rw [h1, assignCircleFreqs_filter_key, mergeSort_filter_key_ci]

theorem catalog_sorted_stable_witness :
    ((buildSquareModes 2 2).get ⟨0, by rw [length_buildSquareModes22]; norm_num⟩).modeIndex
      ≤ ((buildSquareModes 2 2).get ⟨1, by rw [length_buildSquareModes22]; norm_num⟩).modeIndex :=
  (catalog_sorted_stable 2 2 1).1 0 1 _ _ (by norm_num)

/-! ### Helper lemmas for the field sampler -/

theorem foldl_absmax_le (l : List ℝ) (acc : ℝ) :
    acc ≤ l.foldl (fun a v => if |v| > a then |v| else a) acc := by
  induction l generalizing acc with
  | nil => simp
  | cons v t ih =>
      simp only [List.foldl_cons]
      refine le_trans ?_ (ih _)
      by_cases h : |v| > acc
      · rw [if_pos h]
        exact le_of_lt h
      · rw [if_neg h]

theorem maxAbsOf_nonneg (amps : List ℝ) : 0 ≤ maxAbsOf amps :=
  foldl_absmax_le amps 0

theorem fieldThreshold_nonneg (tau maxAbs : ℝ) (h1 : 0 ≤ tau) :
    0 ≤ fieldThreshold tau maxAbs := by
  unfold fieldThreshold
  apply mul_nonneg h1
  by_cases h : maxAbs > 0
  · rw [if_pos h]
    exact h.le
  · rw [if_neg h]
    norm_num

theorem one_lt_sqrt_two : 1 < Real.sqrt 2 :=
  (Real.lt_sqrt (by norm_num)).mpr (by norm_num)

theorem amplitudeAt_circle_outside (mode0 mode1 : CircleMode) (alpha : ℝ) (res j i : ℕ)
    (h : 1 < hypot (-1 + (i : ℝ) * (2 / ((res : ℝ) - 1)))
           (-1 + (j : ℝ) * (2 / ((res : ℝ) - 1)))) :
    amplitudeAt .circle mode0 mode1 alpha res j i = 0 := by
  unfold amplitudeAt
  rw [if_neg]
  exact not_le.mpr h

theorem recomputeField_some (shape : Shape) (mode0 mode1 : ModeT shape)
    (freqHz plateSize alpha width height : ℝ) (res : ℕ) (tau : ℝ)
    (hwh : ¬ (width = 0 ∨ height = 0)) :
    recomputeField shape
        { shape := shape, freqHz := freqHz, plateSize := plateSize,
          mode0 := some mode0, mode1 := some mode1, alpha := alpha }
        width height res tau
      = nodalPointList shape mode0 mode1 alpha res (width / 2) (height / 2)
          (0.45 * min width height * plateSize)
          (fieldThreshold tau (maxAbsOf (amplitudeList shape mode0 mode1 alpha res))) := by
  show (if width = 0 ∨ height = 0 then ([] : List (ℝ × ℝ))
        else nodalPointList shape mode0 mode1 alpha res (width / 2) (height / 2)
          (0.45 * min width height * plateSize)
          (fieldThreshold tau (maxAbsOf (amplitudeList shape mode0 mode1 alpha res))))
      = nodalPointList shape mode0 mode1 alpha res (width / 2) (height / 2)
          (0.45 * min width height * plateSize)
          (fieldThreshold tau (maxAbsOf (amplitudeList shape mode0 mode1 alpha res)))
  exact if_neg hwh

theorem nodalPointList_mem (shape : Shape) (mode0 mode1 : ModeT shape)
    (alpha : ℝ) (res : ℕ) (cx cy half threshold : ℝ) (i j : ℕ)
    (hi : i < res) (hj : j < res)
    (hcollect : |amplitudeAt shape mode0 mode1 alpha res j i| ≤ threshold) :
    (cx + (-1 + (i : ℝ) * (2 / ((res : ℝ) - 1))) * half,
     cy - (-1 + (j : ℝ) * (2 / ((res : ℝ) - 1))) * half)
      ∈ nodalPointList shape mode0 mode1 alpha res cx cy half threshold := by
  unfold nodalPointList
  rw [List.mem_flatMap]
  refine ⟨j, List.mem_range.mpr hj, ?_⟩
  rw [List.mem_filterMap]
  refine ⟨i, List.mem_range.mpr hi, ?_⟩
  show (if |amplitudeAt shape mode0 mode1 alpha res j i| ≤ threshold then
          some (cx + (-1 + (i : ℝ) * (2 / ((res : ℝ) - 1))) * half,
                cy - (-1 + (j : ℝ) * (2 / ((res : ℝ) - 1))) * half)
        else none)
      = some (cx + (-1 + (i : ℝ) * (2 / ((res : ℝ) - 1))) * half,
              cy - (-1 + (j : ℝ) * (2 / ((res : ℝ) - 1))) * half)
  exact if_pos hcollect

/-- Claim C10: for the circular plate, with resolution `res ≥ 2` and both
blend modes present, every grid point outside the unit disc is stored with
amplitude 0, the detection threshold is nonnegative, and the point's pixel
position is always included in the returned nodal point set, whatever the
frequency, plate size and blend are. -/
theorem circle_outside_points_nodal (mode0 mode1 : CircleMode)
    (freqHz plateSize alpha width height : ℝ) (res i j : ℕ)
    (hw : width ≠ 0) (hh : height ≠ 0) (hres : 2 ≤ res) (hi : i < res) (hj : j < res)
    (hout : 1 < hypot (-1 + (i : ℝ) * (2 / ((res : ℝ) - 1)))
              (-1 + (j : ℝ) * (2 / ((res : ℝ) - 1)))) :
    amplitudeAt .circle mode0 mode1 alpha res j i = 0 ∧
    0 ≤ fieldThreshold nodeThreshold
          (maxAbsOf (amplitudeList .circle mode0 mode1 alpha res)) ∧
    (width / 2 + (-1 + (i : ℝ) * (2 / ((res : ℝ) - 1)))
        * (0.45 * min width height * plateSize),
     height / 2 - (-1 + (j : ℝ) * (2 / ((res : ℝ) - 1)))
        * (0.45 * min width height * plateSize))
      ∈ recomputeField .circle
          { shape := .circle, freqHz := freqHz, plateSize := plateSize,
            mode0 := some mode0, mode1 := some mode1, alpha := alpha }
          width height res nodeThreshold := by
  have hamp := amplitudeAt_circle_outside mode0 mode1 alpha res j i hout
  have hthr : 0 ≤ fieldThreshold nodeThreshold
      (maxAbsOf (amplitudeList .circle mode0 mode1 alpha res)) :=
    fieldThreshold_nonneg _ _ (by norm_num [nodeThreshold])
  refine ⟨hamp, hthr, ?_⟩
  rw [recomputeField_some .circle mode0 mode1 freqHz plateSize alpha width height res
    nodeThreshold (by push_neg; exact ⟨hw, hh⟩)]
  apply nodalPointList_mem .circle mode0 mode1 alpha res _ _ _ _ i j hi hj
  rw [hamp, abs_zero]
  exact hthr

theorem circle_outside_points_nodal_witness :
    amplitudeAt .circle sampleCircleMode sampleCircleMode 0 2 1 1 = 0 ∧
    0 ≤ fieldThreshold nodeThreshold
          (maxAbsOf (amplitudeList .circle sampleCircleMode sampleCircleMode 0 2)) ∧
    ((100 : ℝ) / 2 + (-1 + ((1 : ℕ) : ℝ) * (2 / (((2 : ℕ) : ℝ) - 1)))
        * (0.45 * min (100 : ℝ) 100 * 1),
     (100 : ℝ) / 2 - (-1 + ((1 : ℕ) : ℝ) * (2 / (((2 : ℕ) : ℝ) - 1)))
        * (0.45 * min (100 : ℝ) 100 * 1))
      ∈ recomputeField .circle
          { shape := .circle, freqHz := 440, plateSize := 1,
            mode0 := some sampleCircleMode, mode1 := some sampleCircleMode, alpha := 0 }
          100 100 2 nodeThreshold := by
  apply circle_outside_points_nodal sampleCircleMode sampleCircleMode 440 1 0 100 100 2 1 1
    (by norm_num) (by norm_num) (by norm_num) (by norm_num) (by norm_num)
  have h1 : (-1 : ℝ) + ((1 : ℕ) : ℝ) * (2 / (((2 : ℕ) : ℝ) - 1)) = 1 := by
    push_cast
    norm_num
  rw [h1]
  unfold hypot
  rw [show ((1 : ℝ) * 1 + 1 * 1) = 2 by norm_num]
  exact one_lt_sqrt_two

/-! ### Concrete evaluation of a sampling pass (claim C1) -/

theorem squareModeDisplacement_swap (x y : ℝ) (m n : ℤ) :
    squareModeDisplacement x y n m = - squareModeDisplacement x y m n := by
  by_cases h : m = n
  · subst h
    simp [squareModeDisplacement]
  · unfold squareModeDisplacement
    rw [if_neg (Ne.symm h), if_neg h]
    ring

theorem sqDisp_mm : squareModeDisplacement (-1) (-1) 1 2 = 0 := by
  simp only [squareModeDisplacement]
  rw [if_neg (by decide)]
  have e1 : ((2 : ℤ) : ℝ) * Real.pi * (((-1 : ℝ) + 1) * 0.5) = 0 := by push_cast; ring
  have e2 : ((1 : ℤ) : ℝ) * Real.pi * (((-1 : ℝ) + 1) * 0.5) = 0 := by push_cast; ring
  rw [e1, e2, Real.cos_zero]
  norm_num

theorem sqDisp_pm : squareModeDisplacement 1 (-1) 1 2 = 2 := by
  simp only [squareModeDisplacement]
  rw [if_neg (by decide)]
  have e1 : ((2 : ℤ) : ℝ) * Real.pi * (((1 : ℝ) + 1) * 0.5) = 2 * Real.pi := by
    push_cast; ring
  have e2 : ((1 : ℤ) : ℝ) * Real.pi * (((-1 : ℝ) + 1) * 0.5) = 0 := by push_cast; ring
  have e3 : ((1 : ℤ) : ℝ) * Real.pi * (((1 : ℝ) + 1) * 0.5) = Real.pi := by
    push_cast; ring
  have e4 : ((2 : ℤ) : ℝ) * Real.pi * (((-1 : ℝ) + 1) * 0.5) = 0 := by push_cast; ring
  rw [e1, e2, e3, e4, Real.cos_two_pi, Real.cos_zero, Real.cos_pi]
  norm_num

theorem sqDisp_mp : squareModeDisplacement (-1) 1 1 2 = -2 := by
  simp only [squareModeDisplacement]
  rw [if_neg (by decide)]
  have e1 : ((2 : ℤ) : ℝ) * Real.pi * (((-1 : ℝ) + 1) * 0.5) = 0 := by push_cast; ring
  have e2 : ((1 : ℤ) : ℝ) * Real.pi * (((1 : ℝ) + 1) * 0.5) = Real.pi := by
    push_cast; ring
  have e3 : ((1 : ℤ) : ℝ) * Real.pi * (((-1 : ℝ) + 1) * 0.5) = 0 := by push_cast; ring
  have e4 : ((2 : ℤ) : ℝ) * Real.pi * (((1 : ℝ) + 1) * 0.5) = 2 * Real.pi := by
    push_cast; ring
  rw [e1, e2, e3, e4, Real.cos_two_pi, Real.cos_zero, Real.cos_pi]
  norm_num

theorem sqDisp_pp : squareModeDisplacement 1 1 1 2 = 0 := by
  simp only [squareModeDisplacement]
  rw [if_neg (by decide)]
  have e1 : ((2 : ℤ) : ℝ) * Real.pi * (((1 : ℝ) + 1) * 0.5) = 2 * Real.pi := by
    push_cast; ring
  have e2 : ((1 : ℤ) : ℝ) * Real.pi * (((1 : ℝ) + 1) * 0.5) = Real.pi := by
    push_cast; ring
  rw [e1, e2, Real.cos_two_pi, Real.cos_pi]
  norm_num

theorem amp_sq_00 : amplitudeAt .square sampleSquareMode sampleSquareMode2 (3/8) 2 0 0 = 0 := by
  have hc0 : (-1 : ℝ) + ((0 : ℕ) : ℝ) * (2 / (((2 : ℕ) : ℝ) - 1)) = -1 := by
    push_cast; norm_num
  simp only [amplitudeAt, hc0]
  rw [if_pos (by constructor <;> norm_num)]
  simp only [blendDisplacement, sampleSquareMode, sampleSquareMode2]
  rw [squareModeDisplacement_swap (-1) (-1) 1 2, sqDisp_mm]
  norm_num

theorem amp_sq_01 : amplitudeAt .square sampleSquareMode sampleSquareMode2 (3/8) 2 0 1 = 1/2 := by
  have hc0 : (-1 : ℝ) + ((0 : ℕ) : ℝ) * (2 / (((2 : ℕ) : ℝ) - 1)) = -1 := by
    push_cast; norm_num
  have hc1 : (-1 : ℝ) + ((1 : ℕ) : ℝ) * (2 / (((2 : ℕ) : ℝ) - 1)) = 1 := by
    push_cast; norm_num
  simp only [amplitudeAt, hc0, hc1]
  rw [if_pos (by constructor <;> norm_num)]
  simp only [blendDisplacement, sampleSquareMode, sampleSquareMode2]
  rw [squareModeDisplacement_swap 1 (-1) 1 2, sqDisp_pm]
  norm_num

theorem amp_sq_10 : amplitudeAt .square sampleSquareMode sampleSquareMode2 (3/8) 2 1 0 = -(1/2) := by
  have hc0 : (-1 : ℝ) + ((0 : ℕ) : ℝ) * (2 / (((2 : ℕ) : ℝ) - 1)) = -1 := by
    push_cast; norm_num
  have hc1 : (-1 : ℝ) + ((1 : ℕ) : ℝ) * (2 / (((2 : ℕ) : ℝ) - 1)) = 1 := by
    push_cast; norm_num
  simp only [amplitudeAt, hc0, hc1]
  rw [if_pos (by constructor <;> norm_num)]
  simp only [blendDisplacement, sampleSquareMode, sampleSquareMode2]
  rw [squareModeDisplacement_swap (-1) 1 1 2, sqDisp_mp]
  norm_num

theorem amp_sq_11 : amplitudeAt .square sampleSquareMode sampleSquareMode2 (3/8) 2 1 1 = 0 := by
  have hc1 : (-1 : ℝ) + ((1 : ℕ) : ℝ) * (2 / (((2 : ℕ) : ℝ) - 1)) = 1 := by
    push_cast; norm_num
  simp only [amplitudeAt, hc1]
  rw [if_pos (by constructor <;> norm_num)]
  simp only [blendDisplacement, sampleSquareMode, sampleSquareMode2]
  rw [squareModeDisplacement_swap 1 1 1 2, sqDisp_pp]
  norm_num

theorem amplitudeList_square_cex :
    amplitudeList .square sampleSquareMode sampleSquareMode2 (3/8) 2
      = [0, 1/2, -(1/2), 0] := by
  unfold amplitudeList
  rw [show List.range 2 = [0, 1] from rfl]
  simp only [List.flatMap_cons, List.flatMap_nil, List.map_cons, List.map_nil,
    List.append_nil, List.cons_append, List.nil_append]
  rw [amp_sq_00, amp_sq_01, amp_sq_10, amp_sq_11]

theorem maxAbs_square_cex :
    maxAbsOf (amplitudeList .square sampleSquareMode sampleSquareMode2 (3/8) 2) = 1/2 := by
  rw [amplitudeList_square_cex]
  unfold maxAbsOf
  simp only [List.foldl_cons, List.foldl_nil, abs_zero, abs_neg]
  rw [abs_of_nonneg (by norm_num : (0:ℝ) ≤ 1/2)]
  norm_num

/-- Claim C1 counterexample: a sampling pass (square plate, the two lowest
catalog modes `(1,2)` and `(2,1)`, `alpha = 3/8`, resolution 2) whose
observed `maxAbs` is `1/2`, strictly between 0 and 1.  There the code's
threshold is `0.08 * maxAbs = 0.04`, not `0.08 * max(maxAbs, 1) = 0.08` as
the claim states. -/
theorem fieldThreshold_spec_cex :
    fieldThreshold nodeThreshold
        (maxAbsOf (amplitudeList .square sampleSquareMode sampleSquareMode2 (3/8) 2))
      ≠ fieldThresholdSpec nodeThreshold
        (maxAbsOf (amplitudeList .square sampleSquareMode sampleSquareMode2 (3/8) 2)) := by
  rw [maxAbs_square_cex]
  unfold fieldThreshold fieldThresholdSpec nodeThreshold
  rw [if_pos (by norm_num : (1/2 : ℝ) > 0), max_eq_right (by norm_num : (1/2 : ℝ) ≤ 1)]
  norm_num

/-- Claim C1 (amended): in every sampling pass the threshold equals the
threshold fraction times `maxAbs` whenever `maxAbs > 0`, and equals the
fraction itself (times 1) when `maxAbs = 0` — in particular, for a
uniformly zero field the threshold is the fraction (0.08 by default), not
zero.  (The spec's formula `τ * max(maxAbs, 1)` only agrees with the code
when `maxAbs = 0` or `maxAbs ≥ 1`.) -/
theorem fieldThreshold_amended (shape : Shape) (mode0 mode1 : ModeT shape)
    (alpha : ℝ) (res : ℕ) (tau : ℝ) :
    0 ≤ maxAbsOf (amplitudeList shape mode0 mode1 alpha res) ∧
    (0 < maxAbsOf (amplitudeList shape mode0 mode1 alpha res) →
      fieldThreshold tau (maxAbsOf (amplitudeList shape mode0 mode1 alpha res))
        = tau * maxAbsOf (amplitudeList shape mode0 mode1 alpha res)) ∧
    (maxAbsOf (amplitudeList shape mode0 mode1 alpha res) = 0 →
      fieldThreshold tau (maxAbsOf (amplitudeList shape mode0 mode1 alpha res)) = tau) := by
  refine ⟨maxAbsOf_nonneg _, ?_, ?_⟩
  · intro h
    unfold fieldThreshold
    rw [if_pos h]
  · intro h
    unfold fieldThreshold
    rw [h, if_neg (lt_irrefl 0), mul_one]

theorem amp_circle_00 : amplitudeAt .circle sampleCircleMode sampleCircleMode 0 2 0 0 = 0 := by
  apply amplitudeAt_circle_outside
  have hc0 : (-1 : ℝ) + ((0 : ℕ) : ℝ) * (2 / (((2 : ℕ) : ℝ) - 1)) = -1 := by
    push_cast; norm_num
  rw [hc0]
  unfold hypot
  rw [show ((-1 : ℝ) * (-1) + (-1) * (-1)) = 2 by norm_num]
  exact one_lt_sqrt_two

theorem amp_circle_01 : amplitudeAt .circle sampleCircleMode sampleCircleMode 0 2 0 1 = 0 := by
  apply amplitudeAt_circle_outside
  have hc0 : (-1 : ℝ) + ((0 : ℕ) : ℝ) * (2 / (((2 : ℕ) : ℝ) - 1)) = -1 := by
    push_cast; norm_num
  have hc1 : (-1 : ℝ) + ((1 : ℕ) : ℝ) * (2 / (((2 : ℕ) : ℝ) - 1)) = 1 := by
    push_cast; norm_num
  rw [hc0, hc1]
  unfold hypot
  rw [show ((1 : ℝ) * 1 + (-1) * (-1)) = 2 by norm_num]
  exact one_lt_sqrt_two

theorem amp_circle_10 : amplitudeAt .circle sampleCircleMode sampleCircleMode 0 2 1 0 = 0 := by
  apply amplitudeAt_circle_outside
  have hc0 : (-1 : ℝ) + ((0 : ℕ) : ℝ) * (2 / (((2 : ℕ) : ℝ) - 1)) = -1 := by
    push_cast; norm_num
  have hc1 : (-1 : ℝ) + ((1 : ℕ) : ℝ) * (2 / (((2 : ℕ) : ℝ) - 1)) = 1 := by
    push_cast; norm_num
  rw [hc0, hc1]
  unfold hypot
  rw [show ((-1 : ℝ) * (-1) + 1 * 1) = 2 by norm_num]
  exact one_lt_sqrt_two

theorem amp_circle_11 : amplitudeAt .circle sampleCircleMode sampleCircleMode 0 2 1 1 = 0 := by
  apply amplitudeAt_circle_outside
  have hc1 : (-1 : ℝ) + ((1 : ℕ) : ℝ) * (2 / (((2 : ℕ) : ℝ) - 1)) = 1 := by
    push_cast; norm_num
  rw [hc1]
  unfold hypot
  rw [show ((1 : ℝ) * 1 + 1 * 1) = 2 by norm_num]
  exact one_lt_sqrt_two

theorem amplitudeList_circle_zero :
    amplitudeList .circle sampleCircleMode sampleCircleMode 0 2 = [0, 0, 0, 0] := by
  unfold amplitudeList
  rw [show List.range 2 = [0, 1] from rfl]
  simp only [List.flatMap_cons, List.flatMap_nil, List.map_cons, List.map_nil,
    List.append_nil, List.cons_append, List.nil_append]
  rw [amp_circle_00, amp_circle_01, amp_circle_10, amp_circle_11]

theorem maxAbs_circle_zero :
    maxAbsOf (amplitudeList .circle sampleCircleMode sampleCircleMode 0 2) = 0 := by
  rw [amplitudeList_circle_zero]
  unfold maxAbsOf
  simp

theorem fieldThreshold_amended_witness :
    ((0 : ℝ) < maxAbsOf (amplitudeList .square sampleSquareMode sampleSquareMode2 (3/8) 2) ∧
      fieldThreshold nodeThreshold
          (maxAbsOf (amplitudeList .square sampleSquareMode sampleSquareMode2 (3/8) 2))
        = nodeThreshold
            * maxAbsOf (amplitudeList .square sampleSquareMode sampleSquareMode2 (3/8) 2)) ∧
    (maxAbsOf (amplitudeList .circle sampleCircleMode sampleCircleMode 0 2) = 0 ∧
      fieldThreshold nodeThreshold
          (maxAbsOf (amplitudeList .circle sampleCircleMode sampleCircleMode 0 2))
        = nodeThreshold) :=
  ⟨⟨by rw [maxAbs_square_cex]; norm_num,
    (fieldThreshold_amended .square sampleSquareMode sampleSquareMode2 (3/8) 2 nodeThreshold).2.1
      (by rw [maxAbs_square_cex]; norm_num)⟩,
   ⟨maxAbs_circle_zero,
    (fieldThreshold_amended .circle sampleCircleMode sampleCircleMode 0 2 nodeThreshold).2.2
      maxAbs_circle_zero⟩⟩

end Chladni
